import Mathlib

/-!
Shallow embedding of the `wssgrok` WebSocket client wrapper (src/index.ts).

The single class `Wssgrok` is modelled as:
* `BusState` — the two handler tables `onEventFunctions` / `onNextEventFunctions`.
  Handlers are identified by `HandlerId`; the observable behaviour of a handler
  (the registrations it performs when invoked) is given by an `Env`.
  JavaScript `Array.prototype.forEach` fixes the range of visited elements when
  the iteration starts, so elements pushed during the iteration are not visited;
  `trigger` below reproduces exactly that.
* `WState` — the instance fields (`url`, `ready`, `ws`, `pingInterval`,
  `messageTimeout`, `connectionVerified`, `pending`) plus `cells`, the
  single-settlement promise cells handed out by `send`.  A JS promise settles at
  most once: `settleCell` keeps the first outcome and ignores later ones.
  The `pending` Map of the source is split into `pending` (its key list, in
  insertion order) and `cells` (the promise cell each key maps to; a cell
  outlives the deletion of its Map entry, as a promise object outlives the map).
* One Lean function per transport callback / method: `onopen`, `onclose`
  (its synchronous part, before the reconnect sleep), `onmessage`, `send`,
  `timeoutFire` (the deadline callback armed by `send`), `verify`, `cleanup`,
  `ping`, and `backoffDelay` for the reconnect sleep duration.
-/

namespace Wssgrok

/-- The four lifecycle event kinds (`type Event` in the source). -/
inductive Event where
  | connect
  | disconnect
  | message
  | verify
deriving DecidableEq, Repr

/-- Handlers are identified by a tag; their behaviour lives in an `Env`. -/
abbrev HandlerId := Nat

/-- The registrations a handler may perform while it runs: `on(e, h)` or
`onNext(e, h)`.  (Handlers in the source are arbitrary closures; the model
tracks exactly their re-entrant registrations on the same bus.) -/
inductive RegAction where
  | regOn (e : Event) (h : HandlerId)
  | regOnNext (e : Event) (h : HandlerId)
deriving DecidableEq, Repr

/-- Association-list lookup, the JS `Map.prototype.get`. -/
def mapGet {α : Type} (cs : List (Nat × α)) (k : Nat) : Option α :=
  match cs with
  | [] => none
  | (k', v) :: rest => if k' = k then some v else mapGet rest k

/-- Association-list update, the JS `Map.prototype.set`: overwrite in place if
the key exists, otherwise append (Map iteration is in insertion order). -/
def mapSet {α : Type} (cs : List (Nat × α)) (k : Nat) (v : α) : List (Nat × α) :=
  match cs with
  | [] => [(k, v)]
  | (k', v') :: rest => if k' = k then (k, v) :: rest else (k', v') :: mapSet rest k v

/-- What a handler does, looked up in the environment (absent id: no effects). -/
def envActs (env : List (HandlerId × List RegAction)) (h : HandlerId) : List RegAction :=
  (mapGet env h).getD []

abbrev Env := List (HandlerId × List RegAction)

/-- The two handler tables of the class, flattened: an entry `(e, h)` is a
registration of handler `h` for kind `e`; per-kind order is push order, which
matches the per-kind arrays of the source. -/
structure BusState where
  onEventFunctions : List (Event × HandlerId)
  onNextEventFunctions : List (Event × HandlerId)
deriving DecidableEq, Repr

/-- The registrations of kind `e`, in registration order. -/
def filterEvent (e : Event) (l : List (Event × HandlerId)) : List HandlerId :=
  (l.filter (fun p => decide (p.1 = e))).map (fun p => p.2)

/-- `this.onEventFunctions[event].push(f)` / `this.onNextEventFunctions[event].push(f)`. -/
def applyAction (b : BusState) (a : RegAction) : BusState :=
  match a with
  | .regOn e h => { b with onEventFunctions := b.onEventFunctions ++ [(e, h)] }
  | .regOnNext e h => { b with onNextEventFunctions := b.onNextEventFunctions ++ [(e, h)] }

/-- Run one handler body: perform its registrations in order. -/
def runActions (b : BusState) (acts : List RegAction) : BusState :=
  acts.foldl applyAction b

/-- Run a list of handlers in order (each performing its registrations). -/
def runHandlers (env : Env) (hs : List HandlerId) (b : BusState) : BusState :=
  hs.foldl (fun b' h => runActions b' (envActs env h)) b

/-- `trigger(event, ...args)` of the source, returning the list of invoked
handlers (in invocation order) and the new bus state.

JS semantics being modelled: `forEach` over `onEventFunctions[event]` visits
the elements present when the call starts; then `forEach` over
`onNextEventFunctions[event]` is evaluated afresh — so one-shot handlers pushed
during the persistent phase ARE visited, while ones pushed during the one-shot
phase are not; finally `onNextEventFunctions[event] = []` drops every one-shot
entry for `event`, including entries pushed during the one-shot phase. -/
def trigger (env : Env) (e : Event) (b : BusState) : List HandlerId × BusState :=
  let pers := filterEvent e b.onEventFunctions
  let b1 := runHandlers env pers b
  let oneShots := filterEvent e b1.onNextEventFunctions
  let b2 := runHandlers env oneShots b1
  (pers ++ oneShots,
   { b2 with onNextEventFunctions := b2.onNextEventFunctions.filter (fun p => decide (p.1 ≠ e)) })

/-- `on(event, f)` of the source (`on` is a reserved token in Lean). -/
def onReg (e : Event) (h : HandlerId) (b : BusState) : BusState :=
  { b with onEventFunctions := b.onEventFunctions ++ [(e, h)] }

/-- `onNext(event, f)` of the source. -/
def onNext (e : Event) (h : HandlerId) (b : BusState) : BusState :=
  { b with onNextEventFunctions := b.onNextEventFunctions ++ [(e, h)] }

/-- Application payloads (`any` in the source) are modelled by naturals. -/
abbrev Payload := Nat

/-- The reasons a pending promise can be rejected with in the source. -/
inductive RejectReason where
  /-- `promise.reject("disconnect")` in `ws.onclose`. -/
  | disconnectMsg
  /-- `p.reject("timeout")` in the deadline callback of `send`. -/
  | timeoutMsg
  /-- `reject("ws is undefined")` in the executor of `send`. -/
  | wsUndefinedMsg
  /-- the exception thrown by `this.ws.send(...)`, turned into a rejection by
  the promise-executor semantics. -/
  | sendException
  /-- `promise.reject(msg.payload)` for an inbound frame with `type == "failure"`. -/
  | failure (p : Payload)
deriving DecidableEq, Repr

/-- A settlement of a promise cell. -/
inductive Settle where
  | resolved (p : Payload)
  | rejected (r : RejectReason)
deriving DecidableEq, Repr

/-- JS promise settlement: the first outcome wins, later ones are ignored. -/
def settleCell (c : Option Settle) (o : Settle) : Option Settle :=
  match c with
  | none => some o
  | some x => some x

/-- Settle (resolve or reject) the cell stored under key `k`, if any
(a map over the entries; written recursively). -/
def settleAt (cs : List (Nat × Option Settle)) (k : Nat) (o : Settle) :
    List (Nat × Option Settle) :=
  match cs with
  | [] => []
  | (k', c) :: rest =>
    if k' = k then (k', settleCell c o) :: settleAt rest k o
    else (k', c) :: settleAt rest k o

/-- An inbound wire envelope, already parsed (`JSON.parse(event.data)`):
optional correlation key, type discriminator, payload.  In the source a key, if
present, is a non-empty uuid string, hence truthy; `Option` models presence. -/
structure Frame where
  key : Option Nat
  type : String
  payload : Payload
deriving DecidableEq, Repr

/-- `const PING_INTERVAL_MS = 5_000`. -/
def PING_INTERVAL_MS : Nat := 5000
/-- `const RECONNECT_DELAY_MS = 10_000`. -/
def RECONNECT_DELAY_MS : Nat := 10000
/-- `const MESSAGE_TIMEOUT_MS = 10_000`. -/
def MESSAGE_TIMEOUT_MS : Nat := 10000

/-- The instance state of a `Wssgrok` object.  `ws` and `pingInterval` record
presence of the transport handle and of the armed heartbeat timer; `pending`
is the key list of the `pending` Map (insertion order); `cells` holds every
promise cell ever created by `send`, keyed by correlation id. -/
structure WState where
  url : String
  ready : Bool
  ws : Bool
  pingInterval : Bool
  messageTimeout : Nat
  connectionVerified : Bool
  pending : List Nat
  cells : List (Nat × Option Settle)
  bus : BusState
deriving DecidableEq, Repr

/-- `cleanup()`: `ready = false; clearInterval(pingInterval); ws = undefined`. -/
def cleanup (s : WState) : WState :=
  { s with ready := false, pingInterval := false, ws := false }

/-- `ws.onopen`: become ready, re-arm the heartbeat, fire `connect`. -/
def onopen (env : Env) (s : WState) : List HandlerId × WState :=
  let s1 := { s with ready := true, pingInterval := true }
  let r := trigger env Event.connect s1.bus
  (r.1, { s1 with bus := r.2 })

/-- The synchronous part of `ws.onclose` (everything before the reconnect
sleep): if `ready`, reject every pending promise with `"disconnect"` (the Map
is NOT cleared) and fire `disconnect`; always clear `connectionVerified` and
run `cleanup()`.  Returns the list of events this close fired. -/
def onclose (env : Env) (s : WState) : List Event × WState :=
  if s.ready then
    let cells' := s.pending.foldl
      (fun cs k => settleAt cs k (Settle.rejected RejectReason.disconnectMsg)) s.cells
    let b' := (trigger env Event.disconnect s.bus).2
    ([Event.disconnect], cleanup { s with cells := cells', bus := b', connectionVerified := false })
  else
    ([], cleanup { s with connectionVerified := false })

/-- `ws.onmessage`: a frame with a (truthy) key is looked up in the pending
Map — absent: logged and dropped; present: the cell is rejected with the
payload when `type == "failure"`, resolved with it otherwise, and the key is
deleted.  A key-less frame fires the `message` event. -/
def onmessage (env : Env) (f : Frame) (s : WState) : WState :=
  match f.key with
  | some k =>
    if k ∈ s.pending then
      let o := if f.type = "failure"
        then Settle.rejected (RejectReason.failure f.payload)
        else Settle.resolved f.payload
      { s with cells := settleAt s.cells k o, pending := s.pending.erase k }
    else s
  | none =>
    { s with bus := (trigger env Event.message s.bus).2 }

/-- The deadline callback armed by `send` for key `k`: if the key is still in
the Map, reject its promise with `"timeout"`; delete the key unconditionally. -/
def timeoutFire (k : Nat) (s : WState) : WState :=
  let s1 := if k ∈ s.pending
    then { s with cells := settleAt s.cells k (Settle.rejected RejectReason.timeoutMsg) }
    else s
  { s1 with pending := s1.pending.erase k }

/-- Result of `send`: the not-ready throw, or the new state together with
whether the deadline timer got armed. -/
inductive SendRes where
  | notReady
  | ok (s : WState) (timerArmed : Bool)
deriving DecidableEq, Repr

/-- `pending.set(k, slot)` on the key list. -/
def pendingSet (l : List Nat) (k : Nat) : List Nat :=
  if k ∈ l then l else l ++ [k]

/-- `send(message, timeout?)` with fresh correlation id `k` (uuid generation is
external; freshness is the uuid assumption).  `sendThrows` models whether the
transport's `send` primitive throws synchronously.  Source order: throw
`"not ready"` if not ready; create the promise, put the slot into the Map;
if `ws` is absent reject `"ws is undefined"` (the executor continues and still
arms the timer); otherwise transmit — a throw from `ws.send` aborts the
executor, rejecting the promise and skipping the `setTimeout`, so no deadline
timer is armed. -/
def send (k : Nat) (sendThrows : Bool) (s : WState) : SendRes :=
  if s.ready = false then SendRes.notReady
  else
    let s1 := { s with pending := pendingSet s.pending k, cells := mapSet s.cells k none }
    if s1.ws = false then
      SendRes.ok { s1 with cells := settleAt s1.cells k (Settle.rejected RejectReason.wsUndefinedMsg) } true
    else if sendThrows then
      SendRes.ok { s1 with cells := settleAt s1.cells k (Settle.rejected RejectReason.sendException) } false
    else
      SendRes.ok s1 true

/-- The state `send` leaves behind (unchanged on the not-ready throw). -/
def sendState (k : Nat) (sendThrows : Bool) (s : WState) : WState :=
  match send k sendThrows s with
  | SendRes.notReady => s
  | SendRes.ok s' _ => s'

/-- Whether `send` armed the deadline timer. -/
def sendTimerArmed (k : Nat) (sendThrows : Bool) (s : WState) : Bool :=
  match send k sendThrows s with
  | SendRes.notReady => false
  | SendRes.ok _ t => t

/-- `verify()`: set the flag, fire `verify`.  Returns the invoked handlers. -/
def verify (env : Env) (s : WState) : List HandlerId × WState :=
  let r := trigger env Event.verify s.bus
  (r.1, { s with connectionVerified := true, bus := r.2 })

/-- `ping()`: sends the literal `"ping"` when ready and a handle exists;
exceptions are logged.  No instance state is touched. -/
def ping (s : WState) : WState := s

/-- `sleep(RECONNECT_DELAY_MS * Math.random() + 1000)` — the backoff duration
for a draw `r` of `Math.random()` (uniform on `[0, 1)`). -/
def backoffDelay (r : ℚ) : ℚ :=
  (RECONNECT_DELAY_MS : ℚ) * r + 1000

/-- One externally observable operation on an instance, for trace reasoning. -/
inductive Step where
  | sendStep (k : Nat) (sendThrows : Bool)
  | frameStep (f : Frame)
  | timerStep (k : Nat)
  | closeStep
  | openStep
  | verifyStep
  | cleanupStep
  | pingStep
deriving DecidableEq, Repr

/-- Apply one operation to the state (discarding the auxiliary outputs). -/
def applyStep (env : Env) (st : Step) (s : WState) : WState :=
  match st with
  | .sendStep k th => sendState k th s
  | .frameStep f => onmessage env f s
  | .timerStep k => timeoutFire k s
  | .closeStep => (onclose env s).2
  | .openStep => (onopen env s).2
  | .verifyStep => (verify env s).2
  | .cleanupStep => cleanup s
  | .pingStep => ping s

/-- Apply a sequence of operations in order. -/
def applySteps (env : Env) (l : List Step) (s : WState) : WState :=
  l.foldl (fun s' st => applyStep env st s') s

/-! ### Association-list lemmas -/

theorem mapGet_mapSet_self {α : Type} (cs : List (Nat × α)) (k : Nat) (v : α) :
    mapGet (mapSet cs k v) k = some v := by
  induction cs with
  | nil => simp [mapGet, mapSet]
  | cons p rest ih =>
    obtain ⟨a, b⟩ := p
    by_cases h : a = k
    · simp [mapSet, mapGet, h]
    · simp [mapSet, mapGet, h, ih]

theorem mapGet_mapSet_ne {α : Type} (cs : List (Nat × α)) (k k' : Nat) (v : α)
    (h : k' ≠ k) : mapGet (mapSet cs k' v) k = mapGet cs k := by
  have h' : ¬ (k = k') := fun hh => h hh.symm
  induction cs with
  | nil => simp [mapGet, mapSet, h, h']
  | cons p rest ih =>
    obtain ⟨a, b⟩ := p
    by_cases ha : a = k'
    · subst ha; simp [mapSet, mapGet, h]
    · by_cases hb : a = k <;> simp [mapSet, mapGet, ha, hb, h, h', ih]

theorem mapGet_settleAt_ne (cs : List (Nat × Option Settle)) (k k' : Nat) (o : Settle)
    (h : k' ≠ k) : mapGet (settleAt cs k' o) k = mapGet cs k := by
  have h' : ¬ (k = k') := fun hh => h hh.symm
  induction cs with
  | nil => simp [mapGet, settleAt]
  | cons p rest ih =>
    obtain ⟨a, b⟩ := p
    by_cases ha : a = k'
    · subst ha; simp [settleAt, mapGet, h, ih]
    · by_cases hb : a = k <;> simp [settleAt, mapGet, ha, hb, h, h', ih]

theorem mapGet_settleAt_settled (cs : List (Nat × Option Settle)) (k k' : Nat)
    (o o' : Settle) (h : mapGet cs k = some (some o)) :
    mapGet (settleAt cs k' o') k = some (some o) := by
  induction cs with
  | nil => simp [mapGet] at h
  | cons p rest ih =>
    obtain ⟨a, b⟩ := p
    by_cases hb : a = k
    · subst hb
      simp [mapGet] at h
      subst h
      by_cases ha : a = k' <;> simp [settleAt, mapGet, ha, settleCell]
    · simp [mapGet, hb] at h
      by_cases ha : a = k'
      · subst ha
        simp [settleAt, mapGet, hb, ih h]
      · simp [settleAt, mapGet, ha, hb, ih h]

theorem mapGet_settleAt_none (cs : List (Nat × Option Settle)) (k : Nat) (o : Settle)
    (h : mapGet cs k = some none) :
    mapGet (settleAt cs k o) k = some (some o) := by
  induction cs with
  | nil => simp [mapGet] at h
  | cons p rest ih =>
    obtain ⟨a, b⟩ := p
    by_cases hb : a = k
    · subst hb
      simp [mapGet] at h
      subst h
      simp [settleAt, mapGet, settleCell]
    · simp [mapGet, hb] at h
      simp [settleAt, mapGet, hb, ih h]

theorem foldl_settleAt_settled (l : List Nat) (cs : List (Nat × Option Settle))
    (k : Nat) (o o' : Settle) (h : mapGet cs k = some (some o)) :
    mapGet (l.foldl (fun cs' k' => settleAt cs' k' o') cs) k = some (some o) := by
  induction l generalizing cs with
  | nil => simpa using h
  | cons a rest ih =>
    simp only [List.foldl_cons]
    exact ih _ (mapGet_settleAt_settled cs k a o o' h)

theorem foldl_settleAt_mem (l : List Nat) (cs : List (Nat × Option Settle))
    (k : Nat) (o' : Settle) (hm : k ∈ l) (h : mapGet cs k = some none) :
    mapGet (l.foldl (fun cs' k' => settleAt cs' k' o') cs) k = some (some o') := by
  induction l generalizing cs with
  | nil => cases hm
  | cons a rest ih =>
    simp only [List.foldl_cons]
    by_cases ha : a = k
    · subst ha
      exact foldl_settleAt_settled rest _ a o' o' (mapGet_settleAt_none cs a o' h)
    · have hm' : k ∈ rest := by
        rcases List.mem_cons.mp hm with h1 | h1
        · exact absurd h1.symm ha
        · exact h1
      exact ih (settleAt cs a o') hm' (by rw [mapGet_settleAt_ne cs k a o' ha]; exact h)

/-! ### Event-bus lemmas -/

theorem runActions_cons (b : BusState) (a : RegAction) (rest : List RegAction) :
    runActions b (a :: rest) = runActions (applyAction b a) rest := rfl

theorem runHandlers_cons (env : Env) (h : HandlerId) (rest : List HandlerId)
    (b : BusState) :
    runHandlers env (h :: rest) b = runHandlers env rest (runActions b (envActs env h)) := rfl

theorem runActions_append (acts : List RegAction) (b : BusState) :
    ∃ dp dn, (runActions b acts).onEventFunctions = b.onEventFunctions ++ dp ∧
      (runActions b acts).onNextEventFunctions = b.onNextEventFunctions ++ dn := by
  induction acts generalizing b with
  | nil => exact ⟨[], [], by simp [runActions], by simp [runActions]⟩
  | cons a rest ih =>
    obtain ⟨dp, dn, hp, hn⟩ := ih (applyAction b a)
    cases a with
    | regOn e h =>
      exact ⟨(e, h) :: dp, dn,
        by rw [runActions_cons, hp]; simp [applyAction],
        by rw [runActions_cons, hn]; simp [applyAction]⟩
    | regOnNext e h =>
      exact ⟨dp, (e, h) :: dn,
        by rw [runActions_cons, hp]; simp [applyAction],
        by rw [runActions_cons, hn]; simp [applyAction]⟩

theorem runHandlers_append (env : Env) (hs : List HandlerId) (b : BusState) :
    ∃ dp dn, (runHandlers env hs b).onEventFunctions = b.onEventFunctions ++ dp ∧
      (runHandlers env hs b).onNextEventFunctions = b.onNextEventFunctions ++ dn := by
  induction hs generalizing b with
  | nil => exact ⟨[], [], by simp [runHandlers], by simp [runHandlers]⟩
  | cons h rest ih =>
    obtain ⟨dp1, dn1, hp1, hn1⟩ := runActions_append (envActs env h) b
    obtain ⟨dp2, dn2, hp2, hn2⟩ := ih (runActions b (envActs env h))
    exact ⟨dp1 ++ dp2, dn1 ++ dn2,
      by rw [runHandlers_cons, hp2, hp1, List.append_assoc],
      by rw [runHandlers_cons, hn2, hn1, List.append_assoc]⟩

theorem filterEvent_append (e : Event) (l1 l2 : List (Event × HandlerId)) :
    filterEvent e (l1 ++ l2) = filterEvent e l1 ++ filterEvent e l2 := by
  simp [filterEvent, List.filter_append]

theorem filterEvent_filter_ne_self (e : Event) (l : List (Event × HandlerId)) :
    filterEvent e (l.filter (fun p => decide (p.1 ≠ e))) = [] := by
  unfold filterEvent
  rw [List.filter_filter]
  have hnil : l.filter (fun a => decide (a.1 = e) && decide (a.1 ≠ e)) = [] := by
    rw [List.filter_eq_nil_iff]
    intro a _
    by_cases ha : a.1 = e <;> simp [ha]
  rw [hnil]
  rfl

theorem filterEvent_filter_ne_other (e e' : Event) (l : List (Event × HandlerId))
    (h : e' ≠ e) :
    filterEvent e' (l.filter (fun p => decide (p.1 ≠ e))) = filterEvent e' l := by
  unfold filterEvent
  rw [List.filter_filter]
  have hcongr : l.filter (fun a => decide (a.1 = e') && decide (a.1 ≠ e))
      = l.filter (fun a => decide (a.1 = e')) := by
    apply List.filter_congr
    intro a _
    by_cases ha : a.1 = e'
    · have hae : a.1 ≠ e := by rw [ha]; exact h
      simp [ha, hae, h]
    · simp [ha]
  rw [hcongr]

/-! ### Preservation of a delivered outcome -/

theorem applySteps_cons (env : Env) (st : Step) (rest : List Step) (s : WState) :
    applySteps env (st :: rest) s = applySteps env rest (applyStep env st s) := rfl

/-- Every operation of the instance preserves an already-delivered outcome in a
promise cell — the only operation that could replace the cell under key `k` is
a `send` reusing `k`, excluded by uuid freshness. -/
theorem cells_settled_preserved (env : Env) (st : Step) (s : WState) (k : Nat)
    (o : Settle) (hc : mapGet s.cells k = some (some o))
    (hst : ∀ b, st ≠ Step.sendStep k b) :
    mapGet (applyStep env st s).cells k = some (some o) := by
  cases st with
  | sendStep k' th =>
    have hk : k' ≠ k := fun hh => hst th (by rw [hh])
    cases hr : s.ready with
    | false => simpa [applyStep, sendState, send, hr] using hc
    | true =>
      have h1 : mapGet (mapSet s.cells k' none) k = some (some o) := by
        rw [mapGet_mapSet_ne s.cells k k' none hk]; exact hc
      cases hw : s.ws with
      | false =>
        simp [applyStep, sendState, send, hr, hw]
        exact mapGet_settleAt_settled _ k k' o _ h1
      | true =>
        cases th with
        | true =>
          simp [applyStep, sendState, send, hr, hw]
          exact mapGet_settleAt_settled _ k k' o _ h1
        | false =>
          simpa [applyStep, sendState, send, hr, hw] using h1
  | frameStep f =>
    cases hf : f.key with
    | none => simpa [applyStep, onmessage, hf] using hc
    | some k'' =>
      by_cases hmem : k'' ∈ s.pending
      · simp [applyStep, onmessage, hf, hmem]
        exact mapGet_settleAt_settled _ _ _ _ _ hc
      · simpa [applyStep, onmessage, hf, hmem] using hc
  | timerStep k'' =>
    by_cases hmem : k'' ∈ s.pending
    · simp [applyStep, timeoutFire, hmem]
      exact mapGet_settleAt_settled _ _ _ _ _ hc
    · simpa [applyStep, timeoutFire, hmem] using hc
  | closeStep =>
    cases hr : s.ready with
    | true =>
      simp [applyStep, onclose, hr, cleanup]
      exact foldl_settleAt_settled _ _ _ _ _ hc
    | false => simpa [applyStep, onclose, hr, cleanup] using hc
  | openStep => simpa [applyStep, onopen] using hc
  | verifyStep => simpa [applyStep, verify] using hc
  | cleanupStep => simpa [applyStep, cleanup] using hc
  | pingStep => simpa [applyStep, ping] using hc

/-! ### Claim theorems -/

/-- **C1** — For every correlation id and every sequence of operations on it
(registration by `send`, resolution/rejection by an inbound correlated frame,
rejection by the deadline timer, bulk rejection on transport close), the
pending slot receives at most one outcome, and once an outcome is delivered
the id becomes unresolvable: every later resolve/reject/expire against its
promise is a no-op — the delivered outcome never changes.  (The one assumption
is uuid freshness: no later `send` reuses the id.) -/
theorem c1_at_most_one_outcome (env : Env) (k : Nat) (o : Settle)
    (steps : List Step) (s : WState)
    (hc : mapGet s.cells k = some (some o))
    (hfresh : ∀ b, Step.sendStep k b ∉ steps) :
    mapGet (applySteps env steps s).cells k = some (some o) := by
  induction steps generalizing s with
  | nil => simpa [applySteps] using hc
  | cons st rest ih =>
    have h1 : mapGet (applyStep env st s).cells k = some (some o) :=
      cells_settled_preserved env st s k o hc
        (fun b hb => hfresh b (by rw [hb]; exact List.mem_cons_self _ _))
    have h2 : ∀ b, Step.sendStep k b ∉ rest :=
      fun b hb => hfresh b (List.mem_cons_of_mem st hb)
    rw [applySteps_cons]
    exact ih (applyStep env st s) h1 h2

/-- Witness for C1: a settled cell survives a timer firing, a transport close
and a late correlated frame. -/
theorem c1_at_most_one_outcome_witness :
    mapGet (⟨"u", true, true, true, 10000, false, [0],
      [(0, some (Settle.resolved 5))], ⟨[], []⟩⟩ : WState).cells 0
      = some (some (Settle.resolved 5)) ∧
    (∀ b, Step.sendStep 0 b ∉
      [Step.timerStep 0, Step.closeStep, Step.frameStep ⟨some 0, "ok", 7⟩]) ∧
    mapGet (applySteps []
      [Step.timerStep 0, Step.closeStep, Step.frameStep ⟨some 0, "ok", 7⟩]
      (⟨"u", true, true, true, 10000, false, [0],
        [(0, some (Settle.resolved 5))], ⟨[], []⟩⟩ : WState)).cells 0
      = some (some (Settle.resolved 5)) :=
  ⟨by decide, by decide,
    c1_at_most_one_outcome [] 0 (Settle.resolved 5)
      [Step.timerStep 0, Step.closeStep, Step.frameStep ⟨some 0, "ok", 7⟩]
      (⟨"u", true, true, true, 10000, false, [0],
        [(0, some (Settle.resolved 5))], ⟨[], []⟩⟩ : WState)
      (by decide) (by decide)⟩

/-- **C4** — For every payload and timeout argument, calling `send` while the
connection is not Connected fails immediately with the not-ready outcome
(`throw new Error("not ready")`, reached before `uuid4()` runs, before the
Map is touched and before any transmission); the instance state is unchanged
by such a call. -/
theorem c4_send_not_ready (env : Env) (s : WState) (k : Nat) (th : Bool)
    (h : s.ready = false) :
    send k th s = SendRes.notReady ∧ applyStep env (Step.sendStep k th) s = s := by
  constructor
  · simp [send, h]
  · simp [applyStep, sendState, send, h]

/-- Witness for C4: a disconnected instance with a non-empty pending store. -/
theorem c4_send_not_ready_witness :
    (⟨"u", false, false, false, 10000, false, [3], [(3, none)], ⟨[], []⟩⟩ : WState).ready
      = false ∧
    (send 7 false (⟨"u", false, false, false, 10000, false, [3], [(3, none)],
        ⟨[], []⟩⟩ : WState) = SendRes.notReady ∧
      applyStep [] (Step.sendStep 7 false)
        (⟨"u", false, false, false, 10000, false, [3], [(3, none)], ⟨[], []⟩⟩ : WState)
      = (⟨"u", false, false, false, 10000, false, [3], [(3, none)], ⟨[], []⟩⟩ : WState)) :=
  ⟨by decide,
    c4_send_not_ready []
      (⟨"u", false, false, false, 10000, false, [3], [(3, none)], ⟨[], []⟩⟩ : WState)
      7 false (by decide)⟩

/-- **C9** — `cleanup()` releases the transport handle and stops the heartbeat
timer while leaving everything else unchanged: the handler tables, the url,
the pending store, the cells, the verified flag and the timeout setting are
identical before and after. -/
theorem c9_cleanup_frame (s : WState) :
    (cleanup s).bus = s.bus ∧ (cleanup s).url = s.url ∧
    (cleanup s).pending = s.pending ∧ (cleanup s).cells = s.cells ∧
    (cleanup s).connectionVerified = s.connectionVerified ∧
    (cleanup s).messageTimeout = s.messageTimeout ∧
    (cleanup s).ready = false ∧ (cleanup s).ws = false ∧
    (cleanup s).pingInterval = false :=
  ⟨rfl, rfl, rfl, rfl, rfl, rfl, rfl, rfl, rfl⟩

/-- **C10** — `verify()` has no connection-state precondition: in every state
it sets the verified flag and fires the `verify` event (dispatching exactly a
`verify` trigger, which invokes every persistent `verify` handler registered
at the call, in order); it never touches the transport handle, the pending
store, the cells, or the ready flag. -/
theorem c10_verify_no_precondition (env : Env) (s : WState) :
    (verify env s).2.connectionVerified = true ∧
    (verify env s).1 = (trigger env Event.verify s.bus).1 ∧
    (∃ t, (verify env s).1 = filterEvent Event.verify s.bus.onEventFunctions ++ t) ∧
    (verify env s).2.ready = s.ready ∧ (verify env s).2.ws = s.ws ∧
    (verify env s).2.pingInterval = s.pingInterval ∧
    (verify env s).2.pending = s.pending ∧ (verify env s).2.cells = s.cells ∧
    (verify env s).2.url = s.url ∧
    (verify env s).2.messageTimeout = s.messageTimeout := by
  refine ⟨rfl, rfl, ?_, rfl, rfl, rfl, rfl, rfl, rfl, rfl⟩
  exact ⟨filterEvent Event.verify
    (runHandlers env (filterEvent Event.verify s.bus.onEventFunctions)
      s.bus).onNextEventFunctions, rfl⟩

theorem mem_pendingSet_self (l : List Nat) (k : Nat) : k ∈ pendingSet l k := by
  by_cases h : k ∈ l <;> simp [pendingSet, h]

/-- Counterexample to C2 as stated: with one pending request (key 0, unsettled
cell) and a previously-Connected instance, the transport close rejects the
promise with the disconnected outcome, but the `PendingRequest` entry is NOT
destroyed — key 0 is still in the correlation store after the close, because
`ws.onclose` only calls `promise.reject("disconnect")` for each entry and
never deletes or clears the Map. -/
theorem c2_counterexample :
    0 ∈ ((onclose [] (⟨"u", true, true, true, 10000, false, [0], [(0, none)],
      ⟨[], []⟩⟩ : WState)).2).pending ∧
    mapGet ((onclose [] (⟨"u", true, true, true, 10000, false, [0], [(0, none)],
      ⟨[], []⟩⟩ : WState)).2).cells 0
      = some (some (Settle.rejected RejectReason.disconnectMsg)) := by
  decide

/-- **C2 (amended)** — On a transport close while `ready` (i.e. Connected had
been reached since the last disconnect), every still-pending request is
rejected with the disconnected outcome and the `disconnect` event fires
exactly once for that close; however the `PendingRequest` entries are NOT
removed from the correlation store by the close — the pending key list is
unchanged (entries disappear only later, via their deadline timers or a
matching frame). -/
theorem c2_close_rejects_pending (env : Env) (s : WState) (hready : s.ready = true) :
    (onclose env s).1 = [Event.disconnect] ∧
    (onclose env s).2.pending = s.pending ∧
    ∀ k, k ∈ s.pending → mapGet s.cells k = some none →
      mapGet (onclose env s).2.cells k
        = some (some (Settle.rejected RejectReason.disconnectMsg)) := by
  refine ⟨by simp [onclose, hready], by simp [onclose, hready, cleanup], ?_⟩
  intro k hk hc
  simp only [onclose, hready, if_true, cleanup]
  exact foldl_settleAt_mem s.pending s.cells k _ hk hc

/-- Witness for C2 (amended): two pending requests, both rejected on close. -/
theorem c2_close_rejects_pending_witness :
    (⟨"u", true, true, true, 10000, false, [0, 1], [(0, none), (1, none)],
      ⟨[], []⟩⟩ : WState).ready = true ∧
    ((onclose [] (⟨"u", true, true, true, 10000, false, [0, 1],
        [(0, none), (1, none)], ⟨[], []⟩⟩ : WState)).1 = [Event.disconnect] ∧
      (onclose [] (⟨"u", true, true, true, 10000, false, [0, 1],
        [(0, none), (1, none)], ⟨[], []⟩⟩ : WState)).2.pending
        = (⟨"u", true, true, true, 10000, false, [0, 1], [(0, none), (1, none)],
          ⟨[], []⟩⟩ : WState).pending ∧
      ∀ k, k ∈ (⟨"u", true, true, true, 10000, false, [0, 1],
          [(0, none), (1, none)], ⟨[], []⟩⟩ : WState).pending →
        mapGet (⟨"u", true, true, true, 10000, false, [0, 1],
          [(0, none), (1, none)], ⟨[], []⟩⟩ : WState).cells k = some none →
        mapGet (onclose [] (⟨"u", true, true, true, 10000, false, [0, 1],
          [(0, none), (1, none)], ⟨[], []⟩⟩ : WState)).2.cells k
          = some (some (Settle.rejected RejectReason.disconnectMsg))) :=
  ⟨by decide,
    c2_close_rejects_pending []
      (⟨"u", true, true, true, 10000, false, [0, 1], [(0, none), (1, none)],
        ⟨[], []⟩⟩ : WState) (by decide)⟩

/-- **C3** — For a request whose key is pending with an unsettled cell:
if the correlated frame arrives first, the future is resolved with the payload
(rejected with it when the envelope type is `"failure"`), the id is removed
from the store, and the deadline timer firing afterwards is a no-op (the state
is unchanged); symmetrically, if the deadline fires first the slot is rejected
with the timeout outcome and removed, and a later frame carrying that id is
dropped without changing anything (the unexpected-response diagnostic). -/
theorem c3_response_vs_deadline (env : Env) (s : WState) (k : Nat) (p : Payload)
    (ty : String) (hk : k ∈ s.pending) (hnd : s.pending.Nodup)
    (hc : mapGet s.cells k = some none) :
    mapGet (onmessage env ⟨some k, ty, p⟩ s).cells k
      = some (some (if ty = "failure" then Settle.rejected (RejectReason.failure p)
          else Settle.resolved p)) ∧
    k ∉ (onmessage env ⟨some k, ty, p⟩ s).pending ∧
    timeoutFire k (onmessage env ⟨some k, ty, p⟩ s) = onmessage env ⟨some k, ty, p⟩ s ∧
    mapGet (timeoutFire k s).cells k
      = some (some (Settle.rejected RejectReason.timeoutMsg)) ∧
    k ∉ (timeoutFire k s).pending ∧
    onmessage env ⟨some k, ty, p⟩ (timeoutFire k s) = timeoutFire k s := by
  have hA : k ∉ s.pending.erase k := List.Nodup.not_mem_erase hnd
  refine ⟨?_, ?_, ?_, ?_, ?_, ?_⟩
  · simp only [onmessage, hk, if_true]
    exact mapGet_settleAt_none s.cells k _ hc
  · simpa [onmessage, hk] using hA
  · have h2 : k ∉ (onmessage env ⟨some k, ty, p⟩ s).pending := by
      simpa [onmessage, hk] using hA
    have h3 : (onmessage env ⟨some k, ty, p⟩ s).pending.erase k
        = (onmessage env ⟨some k, ty, p⟩ s).pending := List.erase_of_not_mem h2
    simp [timeoutFire, h2, h3]
  · simp only [timeoutFire, hk, if_true]
    exact mapGet_settleAt_none s.cells k _ hc
  · simpa [timeoutFire, hk] using hA
  · have h2 : k ∉ (timeoutFire k s).pending := by
      simpa [timeoutFire, hk] using hA
    simp [onmessage, h2]

/-- Witness for C3: key 0 pending, frame with type `"ok"`, payload 7. -/
theorem c3_response_vs_deadline_witness :
    0 ∈ (⟨"u", true, true, true, 10000, false, [0], [(0, none)],
      ⟨[], []⟩⟩ : WState).pending ∧
    (⟨"u", true, true, true, 10000, false, [0], [(0, none)],
      ⟨[], []⟩⟩ : WState).pending.Nodup ∧
    mapGet (⟨"u", true, true, true, 10000, false, [0], [(0, none)],
      ⟨[], []⟩⟩ : WState).cells 0 = some none ∧
    (mapGet (onmessage [] ⟨some 0, "ok", 7⟩ (⟨"u", true, true, true, 10000, false,
        [0], [(0, none)], ⟨[], []⟩⟩ : WState)).cells 0
      = some (some (if "ok" = "failure" then Settle.rejected (RejectReason.failure 7)
          else Settle.resolved 7)) ∧
    0 ∉ (onmessage [] ⟨some 0, "ok", 7⟩ (⟨"u", true, true, true, 10000, false,
        [0], [(0, none)], ⟨[], []⟩⟩ : WState)).pending ∧
    timeoutFire 0 (onmessage [] ⟨some 0, "ok", 7⟩ (⟨"u", true, true, true, 10000,
        false, [0], [(0, none)], ⟨[], []⟩⟩ : WState))
      = onmessage [] ⟨some 0, "ok", 7⟩ (⟨"u", true, true, true, 10000, false,
        [0], [(0, none)], ⟨[], []⟩⟩ : WState) ∧
    mapGet (timeoutFire 0 (⟨"u", true, true, true, 10000, false, [0], [(0, none)],
        ⟨[], []⟩⟩ : WState)).cells 0
      = some (some (Settle.rejected RejectReason.timeoutMsg)) ∧
    0 ∉ (timeoutFire 0 (⟨"u", true, true, true, 10000, false, [0], [(0, none)],
        ⟨[], []⟩⟩ : WState)).pending ∧
    onmessage [] ⟨some 0, "ok", 7⟩ (timeoutFire 0 (⟨"u", true, true, true, 10000,
        false, [0], [(0, none)], ⟨[], []⟩⟩ : WState))
      = timeoutFire 0 (⟨"u", true, true, true, 10000, false, [0], [(0, none)],
        ⟨[], []⟩⟩ : WState)) :=
  ⟨by decide, by decide, by decide,
    c3_response_vs_deadline []
      (⟨"u", true, true, true, 10000, false, [0], [(0, none)], ⟨[], []⟩⟩ : WState)
      0 7 "ok" (by decide) (by decide) (by decide)⟩

/-- Counterexample to C7 as stated: `send` while ready with the transport
handle absent (and, second half, with a throwing transport `send`) rejects the
promise immediately — but the correlation id is NOT removed from the pending
store: the executor never deletes the key, so it stays until the deadline
timer deletes it; on the throwing path the `setTimeout` is never even reached,
so no deadline timer is armed at all. -/
theorem c7_counterexample :
    mapGet (sendState 0 false (⟨"u", true, false, false, 10000, false, [], [],
      ⟨[], []⟩⟩ : WState)).cells 0
      = some (some (Settle.rejected RejectReason.wsUndefinedMsg)) ∧
    0 ∈ (sendState 0 false (⟨"u", true, false, false, 10000, false, [], [],
      ⟨[], []⟩⟩ : WState)).pending ∧
    mapGet (sendState 0 true (⟨"u", true, true, true, 10000, false, [], [],
      ⟨[], []⟩⟩ : WState)).cells 0
      = some (some (Settle.rejected RejectReason.sendException)) ∧
    0 ∈ (sendState 0 true (⟨"u", true, true, true, 10000, false, [], [],
      ⟨[], []⟩⟩ : WState)).pending ∧
    sendTimerArmed 0 true (⟨"u", true, true, true, 10000, false, [], [],
      ⟨[], []⟩⟩ : WState) = false := by
  decide

/-- **C7 (amended)** — When transmission fails synchronously while ready, the
slot is rejected immediately (with the ws-undefined reason when the handle is
absent, with the thrown exception via the promise executor when the transport
`send` throws), but the correlation id REMAINS in the pending store: on the
handle-absent path the deadline timer is still armed and will delete the key
later; on the throwing path the executor aborts before `setTimeout`, so no
timer is armed and nothing ever deletes the key. -/
theorem c7_send_failure_rejects_but_keeps_entry (s : WState) (k : Nat)
    (hr : s.ready = true) :
    (s.ws = false →
      mapGet (sendState k false s).cells k
        = some (some (Settle.rejected RejectReason.wsUndefinedMsg)) ∧
      k ∈ (sendState k false s).pending ∧ sendTimerArmed k false s = true) ∧
    (s.ws = true →
      mapGet (sendState k true s).cells k
        = some (some (Settle.rejected RejectReason.sendException)) ∧
      k ∈ (sendState k true s).pending ∧ sendTimerArmed k true s = false) := by
  have hm : mapGet (mapSet s.cells k none) k = some none :=
    mapGet_mapSet_self s.cells k none
  constructor
  · intro hw
    refine ⟨?_, ?_, ?_⟩
    · simp only [sendState, send, hr, hw]
      simp only [Bool.true_eq_false, if_false, if_true]
      exact mapGet_settleAt_none _ _ _ hm
    · simp [sendState, send, hr, hw, mem_pendingSet_self]
    · simp [sendTimerArmed, send, hr, hw]
  · intro hw
    refine ⟨?_, ?_, ?_⟩
    · simp only [sendState, send, hr, hw]
      simp only [Bool.true_eq_false, if_false, if_true]
      exact mapGet_settleAt_none _ _ _ hm
    · simp [sendState, send, hr, hw, mem_pendingSet_self]
    · simp [sendTimerArmed, send, hr, hw]

/-- Witness for C7 (amended): ready instance with no transport handle. -/
theorem c7_send_failure_witness :
    (⟨"u", true, false, false, 10000, false, [], [], ⟨[], []⟩⟩ : WState).ready
      = true ∧
    (((⟨"u", true, false, false, 10000, false, [], [], ⟨[], []⟩⟩ : WState).ws = false →
      mapGet (sendState 4 false (⟨"u", true, false, false, 10000, false, [], [],
          ⟨[], []⟩⟩ : WState)).cells 4
        = some (some (Settle.rejected RejectReason.wsUndefinedMsg)) ∧
      4 ∈ (sendState 4 false (⟨"u", true, false, false, 10000, false, [], [],
          ⟨[], []⟩⟩ : WState)).pending ∧
      sendTimerArmed 4 false (⟨"u", true, false, false, 10000, false, [], [],
          ⟨[], []⟩⟩ : WState) = true) ∧
    ((⟨"u", true, false, false, 10000, false, [], [], ⟨[], []⟩⟩ : WState).ws = true →
      mapGet (sendState 4 true (⟨"u", true, false, false, 10000, false, [], [],
          ⟨[], []⟩⟩ : WState)).cells 4
        = some (some (Settle.rejected RejectReason.sendException)) ∧
      4 ∈ (sendState 4 true (⟨"u", true, false, false, 10000, false, [], [],
          ⟨[], []⟩⟩ : WState)).pending ∧
      sendTimerArmed 4 true (⟨"u", true, false, false, 10000, false, [], [],
          ⟨[], []⟩⟩ : WState) = false)) :=
  ⟨by decide,
    c7_send_failure_rejects_but_keeps_entry
      (⟨"u", true, false, false, 10000, false, [], [], ⟨[], []⟩⟩ : WState)
      4 (by decide)⟩

theorem trigger_fst (env : Env) (e : Event) (b : BusState) :
    (trigger env e b).1 = filterEvent e b.onEventFunctions
      ++ filterEvent e
        (runHandlers env (filterEvent e b.onEventFunctions) b).onNextEventFunctions := rfl

theorem trigger_snd_onNext (env : Env) (e : Event) (b : BusState) :
    (trigger env e b).2.onNextEventFunctions
      = ((runHandlers env
          (filterEvent e
            (runHandlers env (filterEvent e b.onEventFunctions) b).onNextEventFunctions)
          (runHandlers env (filterEvent e b.onEventFunctions) b)).onNextEventFunctions).filter
        (fun p => decide (p.1 ≠ e)) := rfl

/-- Counterexample to C5 as stated: handler 0 is a one-shot `connect` handler
whose body registers handler 1 via `onNext("connect", ...)`.  The `trigger`
invokes only handler 0; the trailing `onNextEventFunctions[event] = []` then
throws handler 1's registration away (the one-shot list is empty afterwards),
so handler 1 is never invoked — not by the in-flight trigger and not by the
next `connect` trigger, contradicting "invoked exactly once on the next
trigger of its kind that occurs after its registration". -/
theorem c5_counterexample :
    (trigger [(0, [RegAction.regOnNext Event.connect 1])] Event.connect
      ⟨[], [(Event.connect, 0)]⟩).1 = [0] ∧
    (trigger [(0, [RegAction.regOnNext Event.connect 1])] Event.connect
      ⟨[], [(Event.connect, 0)]⟩).2.onNextEventFunctions = [] ∧
    (trigger [(0, [RegAction.regOnNext Event.connect 1])] Event.connect
      ((trigger [(0, [RegAction.regOnNext Event.connect 1])] Event.connect
        ⟨[], [(Event.connect, 0)]⟩).2)).1 = [] := by
  decide

/-- **C5 (amended)** — When `trigger` fires a kind: the one-shot list for that
kind is completely cleared (so no one-shot registration present at the call is
ever invoked again), every one-shot registration present at the call is
invoked by that trigger, contiguously and in registration order, and one-shot
registrations for OTHER kinds survive (the prior registrations stay, in
order).  What does NOT hold of the source is the claim's "exactly once on the
next matching trigger" for handlers registered during the one-shot dispatch
phase of a same-kind trigger: those are discarded without ever running (see
the counterexample). -/
theorem c5_oneshot_consumption (env : Env) (e e' : Event) (b : BusState)
    (hne : e' ≠ e) :
    filterEvent e (trigger env e b).2.onNextEventFunctions = [] ∧
    (∃ s t, (trigger env e b).1 = s ++ filterEvent e b.onNextEventFunctions ++ t) ∧
    (∃ t, filterEvent e' (trigger env e b).2.onNextEventFunctions
        = filterEvent e' b.onNextEventFunctions ++ t) := by
  obtain ⟨dp1, dn1, hp1, hn1⟩ :=
    runHandlers_append env (filterEvent e b.onEventFunctions) b
  refine ⟨?_, ?_, ?_⟩
  · rw [trigger_snd_onNext]
    exact filterEvent_filter_ne_self e _
  · refine ⟨filterEvent e b.onEventFunctions, filterEvent e dn1, ?_⟩
    rw [trigger_fst, hn1, filterEvent_append, List.append_assoc]
  · obtain ⟨dp2, dn2, hp2, hn2⟩ := runHandlers_append env
      (filterEvent e
        (runHandlers env (filterEvent e b.onEventFunctions) b).onNextEventFunctions)
      (runHandlers env (filterEvent e b.onEventFunctions) b)
    refine ⟨filterEvent e' dn1 ++ filterEvent e' dn2, ?_⟩
    rw [trigger_snd_onNext, filterEvent_filter_ne_other e e' _ hne, hn2, hn1,
      filterEvent_append, filterEvent_append, List.append_assoc]

/-- Witness for C5 (amended): one-shot `connect` handler 3, triggering
`connect`, compared against the `message` kind. -/
theorem c5_oneshot_consumption_witness :
    Event.message ≠ Event.connect ∧
    (filterEvent Event.connect
        (trigger [] Event.connect (⟨[], [(Event.connect, 3)]⟩ : BusState)).2.onNextEventFunctions
      = [] ∧
    (∃ s t, (trigger [] Event.connect (⟨[], [(Event.connect, 3)]⟩ : BusState)).1
        = s ++ filterEvent Event.connect
            (⟨[], [(Event.connect, 3)]⟩ : BusState).onNextEventFunctions ++ t) ∧
    (∃ t, filterEvent Event.message
        (trigger [] Event.connect (⟨[], [(Event.connect, 3)]⟩ : BusState)).2.onNextEventFunctions
      = filterEvent Event.message
          (⟨[], [(Event.connect, 3)]⟩ : BusState).onNextEventFunctions ++ t)) :=
  ⟨by decide,
    c5_oneshot_consumption [] Event.connect Event.message
      (⟨[], [(Event.connect, 3)]⟩ : BusState) (by decide)⟩

/-- Counterexample to C6 as stated: persistent `connect` handler 0 registers
handler 1 via `onNext("connect", ...)` while the `connect` trigger is running.
The trigger invokes `[0, 1]` although only handler 0 was registered at the
moment of the call — the one-shot `forEach` is evaluated after the persistent
phase, so a one-shot handler registered during the persistent phase IS
invoked by the same `trigger` call, contradicting "handlers registered during
that trigger call for the same kind are not invoked by that same call". -/
theorem c6_counterexample :
    (trigger [(0, [RegAction.regOnNext Event.connect 1])] Event.connect
      ⟨[(Event.connect, 0)], []⟩).1 = [0, 1] ∧
    filterEvent Event.connect
        (⟨[(Event.connect, 0)], []⟩ : BusState).onEventFunctions
      ++ filterEvent Event.connect
        (⟨[(Event.connect, 0)], []⟩ : BusState).onNextEventFunctions = [0] ∧
    ([0, 1] : List HandlerId) ≠ [0] := by
  decide

/-- **C6 (amended)** — `trigger` invokes all persistent handlers for the kind
registered at the moment of the call in registration order, then the one-shot
handlers for the kind present AFTER the persistent phase in registration
order — that is, the one-shots registered at the call plus any one-shots for
the kind registered during the persistent phase of the very same call — and
then clears the one-shot list for the kind.  Handlers registered during the
one-shot phase (and persistent handlers registered at any point of the call)
are not invoked by that same call. -/
theorem c6_trigger_dispatch (env : Env) (e : Event) (b : BusState) :
    ∃ dn, (runHandlers env (filterEvent e b.onEventFunctions) b).onNextEventFunctions
        = b.onNextEventFunctions ++ dn ∧
      (trigger env e b).1 = filterEvent e b.onEventFunctions
        ++ filterEvent e b.onNextEventFunctions ++ filterEvent e dn ∧
      filterEvent e (trigger env e b).2.onNextEventFunctions = [] := by
  obtain ⟨dp, dn, hp, hn⟩ :=
    runHandlers_append env (filterEvent e b.onEventFunctions) b
  refine ⟨dn, hn, ?_, ?_⟩
  · rw [trigger_fst, hn, filterEvent_append, List.append_assoc]
  · rw [trigger_snd_onNext]
    exact filterEvent_filter_ne_self e _

/-- Counterexample to C8 as stated: the reconnect suspension is
`RECONNECT_DELAY_MS * Math.random() + 1000`, not "10 seconds plus jitter" —
at the admissible draw `r = 0` the delay is 1000 ms, far below the claimed
10-second base. -/
theorem c8_counterexample :
    (0 : ℚ) ≤ 0 ∧ (0 : ℚ) < 1 ∧ backoffDelay 0 = 1000 ∧
    ¬ ((RECONNECT_DELAY_MS : ℚ) ≤ backoffDelay 0) := by
  norm_num [backoffDelay, RECONNECT_DELAY_MS]

/-- **C8 (amended)** — After every transport close the manager suspends,
before `connect()` runs again, for `RECONNECT_DELAY_MS * r + 1000` ms where
`r` is a uniform draw from `[0, 1)`: the delay is the affine image of the
uniform draw — uniformly distributed over a fixed 10 000 ms window on top of
a fixed 1 000 ms minimum, i.e. always in `[1000, 11000)` — NOT a 10-second
base plus non-negative jitter. -/
theorem c8_backoff_window (r : ℚ) (h0 : 0 ≤ r) (h1 : r < 1) :
    backoffDelay r = (RECONNECT_DELAY_MS : ℚ) * r + 1000 ∧
    1000 ≤ backoffDelay r ∧ backoffDelay r < 11000 := by
  have hR : (RECONNECT_DELAY_MS : ℚ) = 10000 := by norm_num [RECONNECT_DELAY_MS]
  refine ⟨rfl, ?_, ?_⟩
  · have hpos : (0 : ℚ) ≤ 10000 * r := mul_nonneg (by norm_num) h0
    rw [backoffDelay, hR]
    linarith
  · have hlt : (10000 : ℚ) * r < 10000 := by nlinarith
    rw [backoffDelay, hR]
    linarith

/-- Witness for C8 (amended): the draw `r = 1/2` gives a 6-second delay. -/
theorem c8_backoff_window_witness :
    (0 : ℚ) ≤ 1 / 2 ∧ (1 / 2 : ℚ) < 1 ∧
    (backoffDelay (1 / 2) = (RECONNECT_DELAY_MS : ℚ) * (1 / 2) + 1000 ∧
      1000 ≤ backoffDelay (1 / 2) ∧ backoffDelay (1 / 2) < 11000) :=
  ⟨by norm_num, by norm_num,
    c8_backoff_window (1 / 2) (by norm_num) (by norm_num)⟩

end Wssgrok
